import Mathlib

/-!
# Verification of the local recommender preference pipeline

A shallow embedding, in Lean 4, of the preference-learning and ranking
pipeline of the repository: the interaction ledger (`main.js`), the two
scoring strategies, rank selection and temporal blending (`model.js`),
and the remote ranking gateway (`server.js`-style Express handler).

Conventions of the embedding:
* JS numbers are modelled as `ℚ` (scores, weights, time spans) or `ℤ`
  (clock readings), with explicit helpers where JS truthiness or
  division-by-zero semantics matter.
* The in-place mutation of shared JS objects is modelled by explicit
  state passing: each DOM/global-state function becomes a function from
  state to state.
* Asynchrony is modelled by explicit outcome parameters (e.g. whether
  the `tfModel.fit` call throws) and by an explicit value describing
  whether an async call returned at its top guards or after running a
  training pass.
-/

namespace Recommender

/-- One entry of the interaction ledger (`interactions` in `main.js`):
the per-post aggregate of a viewer's explicit and implicit feedback.
Ledger records are created with exactly these fields; `duration` is
never set by the ledger (it is read with a `|| 10000` default by the
scorers), so it is modelled as an `Option`. -/
structure Interaction where
  postId : String
  topics : List String
  hashtags : List String
  liked : Bool
  interested : Bool
  not_interested : Bool
  commented : Bool
  timeSpentMs : ℚ
  duration : Option ℚ
  timestamp : ℤ
deriving Repr, DecidableEq

/-- A served corpus item, as far as the pipeline reads it. -/
structure Post where
  id : String
  topics : List String
  hashtags : List String
deriving Repr, DecidableEq

/-- The client-side feed state touched by the ledger operations in
`main.js`: the ledger itself, the id of the currently viewed post, the
start instant of the current view, and the topic/hashtag lists of the
current post (read by `recordTimeSpentOnCurrentPost` when it has to
create a fresh record from `batch[current]`). -/
structure FeedState where
  interactions : List Interaction
  lastViewedPostId : Option String
  postViewStartTime : Option ℤ
  currentTopics : List String
  currentHashtags : List String
deriving Repr, DecidableEq

/-- Replace the first element satisfying `p` by its image under `f`
(the functional reading of mutating the object returned by
`Array.prototype.find`). -/
def updateFirst (p : α → Bool) (f : α → α) : List α → List α
  | [] => []
  | a :: as => if p a then f a :: as else a :: updateFirst p f as

/-- `l.slice(-n)` for a JS array: the last `n` elements. -/
def sliceLast (n : ℕ) (l : List α) : List α :=
  l.drop (l.length - n)

/-- JS truthiness of an optional string (`undefined` and `""` are falsy). -/
def truthyStr : Option String → Bool
  | none => false
  | some s => s ≠ ""

/-- JS truthiness of an optional number (`undefined` and `0` are falsy). -/
def truthyInt : Option ℤ → Bool
  | none => false
  | some t => t ≠ 0

/-- A fresh ledger record, exactly as both creation sites in `main.js`
build it: all feedback flags cleared, no time accrued yet, no
`duration` field. -/
def mkInteraction (pid : String) (topics hashtags : List String) (now : ℤ) :
    Interaction :=
  { postId := pid, topics := topics, hashtags := hashtags, liked := false,
    interested := false, not_interested := false, commented := false,
    timeSpentMs := 0, duration := none, timestamp := now }

/-- The flag update of `recordInteraction` for one engagement kind:
`interested`/`not_interested` are mutually exclusive, `like` toggles,
`comment` latches. -/
def applyEngagement (ty : String) (inter : Interaction) : Interaction :=
  if ty = "interested" then
    { inter with interested := true, not_interested := false }
  else if ty = "not_interested" then
    { inter with not_interested := true, interested := false }
  else if ty = "like" then { inter with liked := !inter.liked }
  else if ty = "comment" then { inter with commented := true }
  else inter

/-- `recordTimeSpentOnCurrentPost` from `main.js` (the spec's
`accrueViewTime`): if a post is being viewed and the elapsed span
`now - postViewStartTime` satisfies `0 < spent && spent < 300000`, add
it to the current post's `timeSpentMs`, creating the record first if
the post has no ledger entry yet.  Note that the creation path appends
without enforcing the 100-record cap. -/
def recordTimeSpentOnCurrentPost (st : FeedState) (now : ℤ) : FeedState :=
  match st.lastViewedPostId, st.postViewStartTime with
  | some pid, some start =>
    if pid = "" ∨ start = 0 then st
    else
      let spent : ℤ := now - start
      if 0 < spent ∧ spent < 300000 then
        let l :=
          match st.interactions.find? (fun i => i.postId = pid) with
          | some _ => st.interactions
          | none =>
              st.interactions ++
                [mkInteraction pid st.currentTopics st.currentHashtags now]
        let addSpent : Interaction → Interaction :=
          fun i => { i with timeSpentMs := i.timeSpentMs + (spent : ℚ) }
        { st with interactions := updateFirst (fun i => i.postId = pid) addSpent l }
      else st
  | _, _ => st

/-- `recordInteraction` from `main.js` (the spec's `recordEngagement`):
find or create the ledger record for the post (trimming the ledger to
the last 100 records when a creation pushes it past 100), update the
feedback flags, accrue view time when the engaged post is the one
currently being viewed (restarting the view timer), and refresh the
record's timestamp. -/
def recordInteraction (st : FeedState) (ty : String) (post : Post)
    (now : ℤ) : FeedState :=
  if post.id = "" then st
  else
    let st1 :=
      match st.interactions.find? (fun i => i.postId = post.id) with
      | some _ => st
      | none =>
          let l := st.interactions ++ [mkInteraction post.id post.topics post.hashtags now]
          { st with interactions := if 100 < l.length then sliceLast 100 l else l }
    let flagged := updateFirst (fun i => i.postId = post.id) (applyEngagement ty)
      st1.interactions
    let st2 := { st1 with interactions := flagged }
    let st3 :=
      if st2.lastViewedPostId = some post.id ∧ truthyInt st2.postViewStartTime then
        { recordTimeSpentOnCurrentPost st2 now with postViewStartTime := some now }
      else st2
    let setStamp : Interaction → Interaction := fun i => { i with timestamp := now }
    { st3 with interactions :=
        updateFirst (fun i => i.postId = post.id) setStamp st3.interactions }

/-! ## model.js: constants and the preference data model -/

/-- Preference weighting constants from `model.js`. -/
def WEIGHT_LIKED : ℚ := 3

/-- See `WEIGHT_LIKED`. -/
def WEIGHT_INTERESTED : ℚ := 2

/-- See `WEIGHT_LIKED`. -/
def WEIGHT_NOT_INTERESTED : ℚ := -4

/-- See `WEIGHT_LIKED`. -/
def WEIGHT_COMMENTED : ℚ := 3/2

/-- Minimum ledger size before the scorers produce a non-empty result. -/
def MIN_INTERACTIONS : ℕ := 10

/-- Cap on retained previous scoring results per domain. -/
def MAX_STORED_RESULTS : ℕ := 5

/-- A named interest paired with a relevance weight (an element of the
`{name, weight}` objects flowing through `model.js`). -/
structure PreferenceWeight where
  name : String
  weight : ℚ
deriving Repr, DecidableEq

/-- A `{topics, hashtags}` analysis result. -/
structure Results where
  topics : List PreferenceWeight
  hashtags : List PreferenceWeight
deriving Repr, DecidableEq

/-- Stable descending sort by weight (`.sort((a, b) => b.weight - a.weight)`). -/
def sortByWeightDesc (l : List PreferenceWeight) : List PreferenceWeight :=
  l.mergeSort (fun a b => decide (b.weight ≤ a.weight))

/-- `inter.duration || 10000`: JS falsy default (missing or `0` becomes
`10000`). -/
def durationOr10000 : Option ℚ → ℚ
  | none => 10000
  | some d => if d = 0 then 10000 else d

/-- The explicit-feedback part of the per-record score, shared verbatim
by both scorers: `+3` like, `+2` interested, `-4` not interested,
`+1.5` commented. -/
def explicitFeedbackScore (inter : Interaction) : ℚ :=
  (if inter.liked then WEIGHT_LIKED else 0) +
    (if inter.interested then WEIGHT_INTERESTED else 0) +
    (if inter.not_interested then WEIGHT_NOT_INTERESTED else 0) +
    (if inter.commented then WEIGHT_COMMENTED else 0)

/-- The per-record preference score used by `trainModel` to build the
training labels: when no explicit feedback flag is set, the dwell-time
signal `((timeSpentMs / (duration || 10000)) - 0.5) * 2` is added. -/
def trainPreferenceScore (inter : Interaction) : ℚ :=
  let base := explicitFeedbackScore inter
  if !inter.liked && !inter.interested && !inter.not_interested && !inter.commented then
    base + (inter.timeSpentMs / durationOr10000 inter.duration - 1/2) * 2
  else base

/-- The per-record score used by `analyzeWithoutModel`: the explicit
part plus `+1` when the time ratio exceeds `0.7` and `-1` when it is
below `0.2` (applied regardless of the explicit flags). -/
def heuristicScore (inter : Interaction) : ℚ :=
  let base := explicitFeedbackScore inter
  let timeRatio := inter.timeSpentMs / durationOr10000 inter.duration
  let s1 := if 7/10 < timeRatio then base + 1 else base
  if timeRatio < 2/10 then s1 - 1 else s1

/-! ## model.js: the heuristic scorer (`analyzeWithoutModel`) -/

/-- Per-name accumulator of the heuristic scorer. -/
structure ScoreData where
  positive : ℚ
  negative : ℚ
  count : ℕ
deriving Repr, DecidableEq

/-- The empty score table over a name list: one `{positive: 0,
negative: 0, count: 0}` cell per distinct name, in first-occurrence
order (JS object keys collapse duplicates). -/
def initScores (names : List String) : List (String × ScoreData) :=
  names.dedup.map (fun n => (n, ⟨0, 0, 0⟩))

/-- Fold one record score into a cell: positive scores accumulate into
`positive`, negative ones into `negative` (absolute value), and the
occurrence count always increments. -/
def accumScore (s : ℚ) (d : ScoreData) : ScoreData :=
  { positive := d.positive + (if 0 < s then s else 0),
    negative := d.negative + (if s < 0 then |s| else 0),
    count := d.count + 1 }

/-- Apply `accumScore` to the cell of `name`, when the table has one
(`if (topicScores[topic])` in the source: unseen names are ignored). -/
def bumpScore (s : ℚ) (tbl : List (String × ScoreData)) (name : String) :
    List (String × ScoreData) :=
  tbl.map (fun p => if p.1 = name then (p.1, accumScore s p.2) else p)

/-- Accumulate all records of the window into a score table: for each
record, its heuristic score is folded into the cell of every name of
the record in the chosen domain. -/
def accumTable (proj : Interaction → List String) (names : List String)
    (interactions : List Interaction) : List (String × ScoreData) :=
  interactions.foldl
    (fun tbl inter => (proj inter).foldl (bumpScore (heuristicScore inter)) tbl)
    (initScores names)

/-- The composite weight of a cell: `avg * 0.6 + (total /
max(1, windowSize)) * 0.4` with `avg = (positive - negative) / count`
(or `0` for an empty cell) and `total = positive - negative`. -/
def compositeWeight (windowSize : ℕ) (d : ScoreData) : ℚ :=
  let avg := if 0 < d.count then (d.positive - d.negative) / (d.count : ℚ) else 0
  let total := d.positive - d.negative
  avg * (6/10) + total / ((max 1 windowSize : ℕ) : ℚ) * (4/10)

/-- Weigh a score table, drop exact zeros, and sort descending. -/
def scoredFromTable (tbl : List (String × ScoreData)) (windowSize : ℕ) :
    List PreferenceWeight :=
  sortByWeightDesc
    ((tbl.map (fun p => PreferenceWeight.mk p.1 (compositeWeight windowSize p.2))).filter
      (fun e => decide (e.weight ≠ 0)))

/-- `analyzeWithoutModel` from `model.js`: the closed-form heuristic
scorer.  Both domains are scored from the same per-record scores; the
externally returned lists are filtered to `weight > 0.1` and truncated
to the top five entries. -/
def analyzeWithoutModel (MODEL_TOPICS MODEL_HASHTAGS : List String)
    (interactions : List Interaction) : Results :=
  let scoredTopics :=
    scoredFromTable (accumTable Interaction.topics MODEL_TOPICS interactions)
      interactions.length
  let scoredHashtags :=
    scoredFromTable (accumTable Interaction.hashtags MODEL_HASHTAGS interactions)
      interactions.length
  { topics := (scoredTopics.filter (fun e => decide ((1:ℚ)/10 < e.weight))).take 5,
    hashtags := (scoredHashtags.filter (fun e => decide ((1:ℚ)/10 < e.weight))).take 5 }

/-! ## model.js: the rank selector (`findNaturalSplit`) -/

/-- JS semantics of `gap / w > c` for a positive literal `c`: when the
divisor is zero, JS produces `Infinity` (comparison true) for a
positive dividend and `NaN` or `-Infinity` (comparison false)
otherwise. -/
def jsRatioGT (gap w c : ℚ) : Bool :=
  if w = 0 then decide (0 < gap) else decide (c < gap / w)

/-- The gap-scan loop of `findNaturalSplit`, fuelled by the list of
indices it visits.  State: the running `maxGap` and candidate
`splitIdx`; a relative gap above `0.6` breaks out of the loop with the
just-recorded split. -/
def naturalSplitGo (items : List PreferenceWeight) (gapThreshold : ℚ) :
    List ℕ → ℚ → ℕ → ℕ
  | [], _, splitIdx => splitIdx
  | i :: rest, maxGap, splitIdx =>
    let wi := (items.getD i (PreferenceWeight.mk "" 0)).weight
    let wi1 := (items.getD (i + 1) (PreferenceWeight.mk "" 0)).weight
    let gap := wi - wi1
    if (maxGap < gap ∧ gapThreshold < gap) ∨ jsRatioGT gap wi (2/5) = true then
      if jsRatioGT gap wi (3/5) then i + 1
      else naturalSplitGo items gapThreshold rest gap (i + 1)
    else naturalSplitGo items gapThreshold rest maxGap splitIdx

/-- `findNaturalSplit` from `model.js`: keep everything for lists of at
most three entries; otherwise scan the first `min(len - 1, 10)`
adjacent gaps for the largest gap above `max(0.1, topWeight * 0.25)`
(or a relative gap above `0.4`), and fall back to
`min(5, #{weight > minThreshold})` when no gap qualified. -/
def findNaturalSplit (items : List PreferenceWeight) (minThreshold : ℚ) : ℕ :=
  if items.length ≤ 3 then items.length
  else
    let gapThreshold := max (1/10) ((items.headD (PreferenceWeight.mk "" 0)).weight * (1/4))
    let splitIdx :=
      naturalSplitGo items gapThreshold (List.range (min (items.length - 1) 10)) 0
        items.length
    if splitIdx = items.length then
      min 5 ((items.filter (fun it => decide (minThreshold < it.weight))).length)
    else splitIdx

/-! ## model.js: the temporal blender (`blendWithPreviousResults`) -/

/-- The aliasing structure of one blending domain: the growing result
array together with the name-to-index lookup map (`topicMap` /
`hashtagMap` alias the array cells in the source; we track indices). -/
structure BlendState where
  arr : List PreferenceWeight
  idx : List (String × ℕ)
deriving Repr, DecidableEq

/-- `new Map(list.map(t => [t.name, t]))`: later entries override
earlier ones, which the assoc list realizes by reverse insertion order
(lookup finds the most recently set binding first). -/
def buildIndexMap (l : List PreferenceWeight) : List (String × ℕ) :=
  l.enum.foldl (fun m p => (p.2.name, p.1) :: m) []

/-- Process one entry of a retained snapshot at recency weight `rw`:
blend into the aliased current entry when the name is present
(`current*0.7 + prior*0.3*rw`), otherwise inject `prior*0.4*rw` as a
new entry when the prior weight exceeds `0.3`. -/
def blendStep (rw : ℚ) (st : BlendState) (prev : PreferenceWeight) : BlendState :=
  match st.idx.lookup prev.name with
  | some i =>
    match st.arr.get? i with
    | some cur =>
        { st with arr :=
            st.arr.set i { cur with weight := cur.weight * (7/10) + prev.weight * (3/10) * rw } }
    | none => st
  | none =>
    if (3:ℚ)/10 < prev.weight then
      { arr := st.arr ++ [PreferenceWeight.mk prev.name (prev.weight * (4/10) * rw)],
        idx := (prev.name, st.arr.length) :: st.idx }
    else st

/-- Blend one domain: fold the retained snapshots chronologically
(oldest first), the `i`-th of `k` snapshots carrying recency weight
`0.8 ^ (k - 1 - i)`, each snapshot blending against the
already-updated current values. -/
def blendDomain (prevResults : List (List PreferenceWeight))
    (current : List PreferenceWeight) : List PreferenceWeight :=
  let k := prevResults.length
  (prevResults.enum.foldl
      (fun st p => p.2.foldl (blendStep (((8:ℚ)/10) ^ (k - p.1 - 1))) st)
      (BlendState.mk current (buildIndexMap current))).arr

/-- `blendWithPreviousResults` from `model.js`, parametrized by the
retained snapshot lists (the module-level `previousTopicsResults` /
`previousHashtagsResults`): identity when no topics snapshot is
retained; otherwise blend topics, blend hashtags only when hashtag
snapshots also exist, then re-sort both domains and filter them to
`weight > 0.1`. -/
def blendWithPreviousResults (previousTopicsResults previousHashtagsResults :
    List (List PreferenceWeight)) (currentResults : Results) : Results :=
  if previousTopicsResults.length = 0 then currentResults
  else
    let blendedTopics := blendDomain previousTopicsResults currentResults.topics
    let blendedHashtags :=
      if 0 < previousHashtagsResults.length then
        blendDomain previousHashtagsResults currentResults.hashtags
      else currentResults.hashtags
    { topics :=
        (sortByWeightDesc blendedTopics).filter (fun t => decide ((1:ℚ)/10 < t.weight)),
      hashtags :=
        (sortByWeightDesc blendedHashtags).filter (fun h => decide ((1:ℚ)/10 < h.weight)) }

/-! ## model.js: training state machine and learned-scorer inference

The TensorFlow model itself is external: inference is parametrized by
a `predict` oracle and the training fit by a `fitThrows` outcome.  The
module-level flags (`tfModel`, `modelTrained`, `modelTraining`) become
an explicit state record. -/

/-- The module-level mutable flags of `model.js`. -/
structure ModelState where
  tfModelLoaded : Bool
  modelTrained : Bool
  modelTraining : Bool
deriving Repr, DecidableEq

/-- How a `trainModel` call returned: at its top guards, without
starting a fit or awaiting anything (its promise resolves at once), or
after running its own training pass to completion. -/
inductive TrainReturn
  | immediate
  | afterTrainingPass
deriving Repr, DecidableEq

/-- `loadModel` from `model.js`: when no model exists or `force` is
set, rebuild it (clearing `modelTrained`), or clear it entirely when
the topic vocabulary is empty. -/
def loadModel (st : ModelState) (topicsLen : ℕ) (force : Bool) : ModelState :=
  if !st.tfModelLoaded || force then
    if topicsLen = 0 then { st with tfModelLoaded := false, modelTrained := false }
    else { st with tfModelLoaded := true, modelTrained := false }
  else st

/-- Discretize a preference score into the three engagement classes:
`score ≤ -1.5 → 0` (disengaged), `score ≥ 1.5 → 2` (engaged), else `1`. -/
def trainLabelClass (s : ℚ) : ℕ :=
  if s ≤ -3/2 then 0 else if 3/2 ≤ s then 2 else 1

/-- `y = [0,0,0]; y[engaged] = 1`. -/
def oneHotLabel (c : ℕ) : List ℚ :=
  [if c = 0 then 1 else 0, if c = 1 then 1 else 0, if c = 2 then 1 else 0]

/-- One training example from a ledger record: one-hot topic features
and the discretized engagement label.  (The source skips records whose
`topics` is not an array; ledger records always carry one.) -/
def trainRow (MODEL_TOPICS : List String) (inter : Interaction) : List ℚ × List ℚ :=
  (MODEL_TOPICS.map (fun t => if inter.topics.contains t then (1:ℚ) else 0),
    oneHotLabel (trainLabelClass (trainPreferenceScore inter)))

/-- Synthetic training rows derived from retained topic snapshots: for
every prior entry with `weight > 0.3`, a feature row favouring that
name (`1` for the name itself, `0.5` for other names of the same
snapshot) with an engaged label of confidence `1` or `0.8`. -/
def syntheticRows (MODEL_TOPICS : List String)
    (previousTopicsResults : List (List PreferenceWeight)) : List (List ℚ × List ℚ) :=
  previousTopicsResults.flatMap (fun prevTopics =>
    let prevTopicNames := prevTopics.map PreferenceWeight.name
    (prevTopics.filter (fun t => decide ((3:ℚ)/10 < t.weight))).map (fun topic =>
      (MODEL_TOPICS.map (fun t =>
          if t = topic.name then (1:ℚ)
          else if prevTopicNames.contains t then 1/2 else 0),
        [0, 0, if (3:ℚ)/5 < topic.weight then 1 else 4/5])))

/-- The training set assembled inside `trainModel`: one row per record
of the last 100, plus the synthetic rows when `usePreviousData` is set
and topic snapshots are retained. -/
def trainingRows (MODEL_TOPICS : List String) (interactionsArr : List Interaction)
    (previousTopicsResults : List (List PreferenceWeight))
    (usePreviousData : Bool) : List (List ℚ × List ℚ) :=
  (sliceLast 100 interactionsArr).map (trainRow MODEL_TOPICS) ++
    (if usePreviousData ∧ 0 < previousTopicsResults.length then
      syntheticRows MODEL_TOPICS previousTopicsResults
    else [])

/-- `trainModel` from `model.js`.  Guards: an in-flight training pass
or an empty vocabulary returns immediately, as does a window below
`MIN_INTERACTIONS`.  Otherwise the model is rebuilt (`loadModel(true)`,
which clears `modelTrained`), `modelTraining` is raised, the training
set is assembled (`trainingRows`), and when it is non-empty the fit
runs: on success `modelTrained := true`, on an exception the catch
sets `modelTrained := false`; the finally block always drops
`modelTraining`. -/
def trainModel (st : ModelState) (MODEL_TOPICS : List String)
    (interactionsArr : List Interaction)
    (previousTopicsResults : List (List PreferenceWeight))
    (usePreviousData fitThrows : Bool) : ModelState × TrainReturn :=
  if st.modelTraining ∨ MODEL_TOPICS.length = 0 then (st, .immediate)
  else if interactionsArr.length < MIN_INTERACTIONS then (st, .immediate)
  else
    let st1 := loadModel st MODEL_TOPICS.length true
    let st2 := { st1 with modelTraining := true }
    let xs := (trainingRows MODEL_TOPICS interactionsArr previousTopicsResults
      usePreviousData).map Prod.fst
    let st3 :=
      if 0 < xs.length ∧ 0 < (xs.headD []).length then
        if fitThrows then { st2 with modelTrained := false }
        else { st2 with modelTrained := true }
      else st2
    ({ st3 with modelTraining := false }, .afterTrainingPass)

/-- Learned-scorer topic weights: probe `predict` with a one-hot per
vocabulary entry and take `P(engaged) - P(disengaged)`. -/
def modelTopicScores (MODEL_TOPICS : List String) (predict : List ℚ → List ℚ) :
    List PreferenceWeight :=
  let n := MODEL_TOPICS.length
  MODEL_TOPICS.enum.map (fun p =>
    let preds := predict ((List.range n).map (fun j => if p.1 = j then (1:ℚ) else 0))
    PreferenceWeight.mk p.2 (preds.getD 2 0 - preds.getD 0 0))

/-- The co-occurrence indicator vector of a hashtag against the topic
vocabulary, computed from the window. -/
def cooccurrenceInput (MODEL_TOPICS : List String)
    (interactions : List Interaction) (h : String) : List ℚ :=
  MODEL_TOPICS.map (fun t =>
    if interactions.any (fun inter => inter.hashtags.contains h && inter.topics.contains t)
    then (1:ℚ) else 0)

/-- Learned-scorer hashtag weights via co-occurrence probes. -/
def modelHashtagScores (MODEL_TOPICS MODEL_HASHTAGS : List String)
    (predict : List ℚ → List ℚ) (interactions : List Interaction) :
    List PreferenceWeight :=
  MODEL_HASHTAGS.map (fun h =>
    let preds := predict (cooccurrenceInput MODEL_TOPICS interactions h)
    PreferenceWeight.mk h (preds.getD 2 0 - preds.getD 0 0))

/-- The selector step applied to one scored domain on the model path:
sort descending, cut at `findNaturalSplit(·, 0.1, 'weight')`, filter to
`weight > 0.1`. -/
def selectorFiltered (scored : List PreferenceWeight) : List PreferenceWeight :=
  let sorted := sortByWeightDesc scored
  (sorted.take (findNaturalSplit sorted (1/10))).filter
    (fun e => decide ((1:ℚ)/10 < e.weight))

/-- The model branch of `analyzeInteractions`. -/
def analyzeModelPath (MODEL_TOPICS MODEL_HASHTAGS : List String)
    (predict : List ℚ → List ℚ) (interactions : List Interaction) : Results :=
  { topics := selectorFiltered (modelTopicScores MODEL_TOPICS predict),
    hashtags :=
      selectorFiltered (modelHashtagScores MODEL_TOPICS MODEL_HASHTAGS predict interactions) }

/-- `analyzeInteractions` from `model.js` (its returned value; the
`storeResults` persistence side effect is modelled by `storeResults`
below): empty result below `MIN_INTERACTIONS` or on an empty
vocabulary; heuristic or learned scoring by `modelTrained`; optional
blending against retained snapshots when any topics snapshot exists. -/
def analyzeInteractions (MODEL_TOPICS MODEL_HASHTAGS : List String)
    (modelTrained : Bool) (predict : List ℚ → List ℚ)
    (previousTopicsResults previousHashtagsResults : List (List PreferenceWeight))
    (interactionsArr : List Interaction) (blendPreviousResults : Bool) : Results :=
  if MODEL_TOPICS.length = 0 then ⟨[], []⟩
  else if interactionsArr.length < MIN_INTERACTIONS then ⟨[], []⟩
  else
    let results :=
      if !modelTrained then analyzeWithoutModel MODEL_TOPICS MODEL_HASHTAGS interactionsArr
      else analyzeModelPath MODEL_TOPICS MODEL_HASHTAGS predict interactionsArr
    if blendPreviousResults ∧ 0 < previousTopicsResults.length then
      blendWithPreviousResults previousTopicsResults previousHashtagsResults results
    else results

/-- `storeResults` for one domain: append a non-empty result and evict
the oldest snapshot beyond `MAX_STORED_RESULTS`. -/
def storeResults (prev : List (List PreferenceWeight))
    (cur : List PreferenceWeight) : List (List PreferenceWeight) :=
  if 0 < cur.length then
    let l := prev ++ [cur]
    if MAX_STORED_RESULTS < l.length then l.drop 1 else l
  else prev

/-! ## server.js: the remote ranking gateway (`GET /api/posts`)

The handler is stateless; randomness (`.sort(() => 0.5 -
Math.random())`) is modelled by reordering oracles passed as
parameters, and `Math.floor(limit * 0.3)` by exact natural division.
The preference query parameters are modelled after parsing: a
JSON-decoded weighted list, a legacy comma-separated name list, or
absent. -/

/-- A value of the JSON object passed to `res.json` by the handler. -/
inductive ApiValue
  | postList (l : List Post)
  | num (n : ℕ)
deriving Repr, DecidableEq

/-- A parsed `topics`/`hashtags` query parameter. -/
inductive PrefParam
  | weighted (l : List PreferenceWeight)
  | names (l : List String)
  | absent
deriving Repr, DecidableEq

/-- The parsed query of a batch request. -/
structure PostsQuery where
  limit : Option ℕ
  topics : PrefParam
  hashtags : PrefParam
deriving Repr, DecidableEq

/-- `parseInt(req.query.limit) || 10`: missing or zero falls back to 10. -/
def effectiveLimit (q : PostsQuery) : ℕ :=
  match q.limit with
  | none => 10
  | some 0 => 10
  | some n => n

/-- `userXs.length && typeof userXs[0] === 'object'`: the parameter
selects the weighted branch iff it is a non-empty weighted list. -/
def isWeightedNonempty : PrefParam → Bool
  | .weighted (_ :: _) => true
  | _ => false

/-- The `{name, weight}` entries usable by the weighted branch (a
bare-name list contributes none: its elements have no `.name`). -/
def prefEntries : PrefParam → List PreferenceWeight
  | .weighted l => l
  | _ => []

/-- The bare names usable by the legacy branch's `includes` matching. -/
def prefNames : PrefParam → List String
  | .names l => l
  | _ => []

/-- `userXs.length` after parsing. -/
def prefLength : PrefParam → ℕ
  | .weighted l => l.length
  | .names l => l.length
  | .absent => 0

/-- `Object.fromEntries(list.map(x => [x.name, x.weight]))[name] || 0`:
the last binding of a duplicated name wins, missing names weigh 0. -/
def weightMapGetD (l : List PreferenceWeight) (name : String) : ℚ :=
  match (l.reverse.map (fun p => (p.name, p.weight))).lookup name with
  | some w => w
  | none => 0

/-- The gateway's per-item score: sum of the matched topic weights plus
the matched hashtag weights. -/
def gatewayScore (tEntries hEntries : List PreferenceWeight) (post : Post) : ℚ :=
  post.topics.foldl (fun s t => s + weightMapGetD tEntries t) 0 +
    post.hashtags.foldl (fun s h => s + weightMapGetD hEntries h) 0

/-- The `GET /api/posts` handler of `server.js`, as the association
list passed to `res.json`: score-and-rank on weighted input (top
`2*limit` plus noise), name-match on legacy input (plus noise), whole
corpus otherwise; then shuffle, truncate to `limit`, and respond with
`{posts, limit, total}`. -/
def apiPostsHandler (corpus : List Post) (q : PostsQuery)
    (noiseShuffle finalShuffle : List Post → List Post) :
    List (String × ApiValue) :=
  let limit := effectiveLimit q
  let noiseCount := 3 * limit / 10
  let filtered :=
    if isWeightedNonempty q.topics || isWeightedNonempty q.hashtags then
      let tEntries := prefEntries q.topics
      let hEntries := prefEntries q.hashtags
      let scored := corpus.map (fun post => (post, gatewayScore tEntries hEntries post))
      let ranked :=
        ((scored.mergeSort (fun a b => decide (b.2 ≤ a.2))).take (limit * 2)).map Prod.fst
      let noise := (noiseShuffle (corpus.filter (fun p => decide (p ∉ ranked)))).take noiseCount
      ranked ++ noise
    else if 0 < prefLength q.topics ∨ 0 < prefLength q.hashtags then
      let matched := corpus.filter (fun post =>
        (decide (0 < prefLength q.topics) &&
            post.topics.any (fun t => (prefNames q.topics).contains t)) ||
          (decide (0 < prefLength q.hashtags) &&
            post.hashtags.any (fun h => (prefNames q.hashtags).contains h)))
      let noise := (noiseShuffle (corpus.filter (fun p => decide (p ∉ matched)))).take noiseCount
      matched ++ noise
    else corpus
  let batch := (finalShuffle filtered).take limit
  [("posts", ApiValue.postList batch), ("limit", ApiValue.num limit),
    ("total", ApiValue.num corpus.length)]

/-- The batch carried by a gateway response (`[]` when the `posts` key
is missing or of the wrong shape). -/
def responseBatch (resp : List (String × ApiValue)) : List Post :=
  match resp.lookup "posts" with
  | some (ApiValue.postList l) => l
  | _ => []

/-! ## Derived observations and concrete inputs -/

/-- The time accrued for `pid` in a ledger (0 when it has no record),
read from the record `Array.prototype.find` would return. -/
def ledgerTimeSpent (l : List Interaction) (pid : String) : ℚ :=
  match l.find? (fun i => i.postId = pid) with
  | some r => r.timeSpentMs
  | none => 0

/-- Initial feed state: empty ledger, post `"q"` being viewed since
instant 1. -/
def initialViewingState : FeedState :=
  FeedState.mk [] (some "q") (some 1) [] []

/-- 100 like-engagements on 100 distinct posts `p0 … p99`, applied to
`initialViewingState`: a ledger filled exactly to its cap. -/
def fullLedgerState : FeedState :=
  (List.range 100).foldl
    (fun st i => recordInteraction st "like" (Post.mk ("p" ++ toString i) [] []) (i : ℤ))
    initialViewingState

/-- A four-entry, strictly descending weighted list on which no gap
qualifies and no entry exceeds the `0.1` threshold. -/
def lowWeightItems : List PreferenceWeight :=
  [PreferenceWeight.mk "a" (1/10), PreferenceWeight.mk "b" (9/100),
    PreferenceWeight.mk "c" (8/100), PreferenceWeight.mk "d" (7/100)]

/-- A record with no explicit feedback, 1000 ms dwell and no duration:
the spec's Scenario A `news` record. -/
def newsRecord : Interaction :=
  { mkInteraction "p1" ["news"] [] 0 with timeSpentMs := 1000 }

/-- A no-explicit-feedback record with a long dwell (8000 ms). -/
def longDwellRecord : Interaction :=
  { mkInteraction "p2" [] [] 0 with timeSpentMs := 8000 }

/-- A one-post corpus and a bare batch request for the gateway. -/
def onePostCorpus : List Post := [Post.mk "i1" ["t"] []]

/-- A request with no preference parameters and no explicit limit. -/
def bareQuery : PostsQuery := PostsQuery.mk none PrefParam.absent PrefParam.absent

/-- Ten minimal ledger records all tagged `"a"`: a window right at
`MIN_INTERACTIONS`. -/
def tenRecords : List Interaction :=
  (List.range 10).map (fun i => mkInteraction (toString i) ["a"] [] 0)

/-- A model state with a previously trained model and no training in
flight. -/
def trainedIdleState : ModelState := ModelState.mk true true false

/-- A model state with a training pass in flight. -/
def trainingBusyState : ModelState := ModelState.mk true false true

/-- A ledger with one record for `"p"` holding 5 ms, while `"p"` is
being viewed since instant 1. -/
def fiveMsState : FeedState :=
  FeedState.mk [{ mkInteraction "p" [] [] 0 with timeSpentMs := 5 }]
    (some "p") (some 1) [] []

/-! ## Theorems -/

/-- C9: blending against zero retained snapshots is the identity: with
no retained `ScoringSnapshot`s, `blendWithPreviousResults` returns the
current `{topics, hashtags}` result unchanged. -/
theorem blend_without_snapshots_is_identity (currentResults : Results) :
    blendWithPreviousResults [] [] currentResults = currentResults := rfl

/-- C10: hashtag blending is gated on the topics domain: whenever the
retained topics snapshot list is empty, `blendWithPreviousResults`
returns the current result unchanged — its hashtag list unblended and
unfiltered — even when retained hashtag snapshots are non-empty. -/
theorem blend_gated_on_topics_snapshots (firstHashtagSnapshot : List PreferenceWeight)
    (laterHashtagSnapshots : List (List PreferenceWeight)) (currentResults : Results) :
    blendWithPreviousResults [] (firstHashtagSnapshot :: laterHashtagSnapshots)
      currentResults = currentResults := rfl

/-- C6 (amended): a `trainModel` call made while `modelTraining` is
true never starts a second fit and leaves the model state untouched,
but it returns immediately: its promise resolves at once instead of
only after the in-flight training pass completes. -/
theorem busy_trainModel_is_noop (st : ModelState) (MODEL_TOPICS : List String)
    (interactionsArr : List Interaction)
    (previousTopicsResults : List (List PreferenceWeight))
    (usePreviousData fitThrows : Bool) (h : st.modelTraining = true) :
    trainModel st MODEL_TOPICS interactionsArr previousTopicsResults
      usePreviousData fitThrows = (st, TrainReturn.immediate) := by
  simp [trainModel, h]

/-- Witness for `busy_trainModel_is_noop` at the concrete busy state. -/
theorem busy_trainModel_is_noop_witness :
    trainModel trainingBusyState ["a"] tenRecords [] true false =
      (trainingBusyState, TrainReturn.immediate) :=
  busy_trainModel_is_noop trainingBusyState ["a"] tenRecords [] true false rfl

/-- C6 (counterexample to the claim as stated): with a training pass in
flight, a second `trainModel` call does not resolve only after the
in-flight pass completes — it returns at its top guard immediately. -/
theorem second_caller_resolves_immediately :
    trainingBusyState.modelTraining = true ∧
    (trainModel trainingBusyState ["a"] tenRecords [] true false).2 =
      TrainReturn.immediate ∧
    (trainModel trainingBusyState ["a"] tenRecords [] true false).2 ≠
      TrainReturn.afterTrainingPass := by decide

/-- The gap-scan loop only ever returns its incoming candidate or
`i + 1` for a visited index `i`. -/
theorem naturalSplitGo_le (items : List PreferenceWeight) (g : ℚ) (n : ℕ) :
    ∀ (idxs : List ℕ) (mg : ℚ) (s : ℕ), (∀ i ∈ idxs, i + 1 ≤ n) → s ≤ n →
      naturalSplitGo items g idxs mg s ≤ n := by
  intro idxs
  induction idxs with
  | nil => intro mg s _ hs; simpa [naturalSplitGo] using hs
  | cons i rest ih =>
    intro mg s hmem hs
    have hi : i + 1 ≤ n := hmem i (by simp)
    have hrest : ∀ j ∈ rest, j + 1 ≤ n := fun j hj => hmem j (by simp [hj])
    simp only [naturalSplitGo]
    split
    · split
      · exact hi
      · exact ih _ _ hrest hi
    · exact ih _ _ hrest hs

/-- C2 (amended): for a non-empty descending-sorted weighted list, the
split index returned by `findNaturalSplit` lies in `[0, len(list)]`
(the fallback can yield `0` when no entry exceeds `minThreshold`), and
it equals `len(list)` whenever `len(list) ≤ 3`. -/
theorem findNaturalSplit_bounds (items : List PreferenceWeight) (minThreshold : ℚ)
    (hne : items ≠ [])
    (hsorted : List.Pairwise (fun a b => b.weight ≤ a.weight) items) :
    findNaturalSplit items minThreshold ≤ items.length ∧
      (items.length ≤ 3 → findNaturalSplit items minThreshold = items.length) := by
  constructor
  · unfold findNaturalSplit
    split
    · exact le_rfl
    · dsimp only
      have hgo :
          naturalSplitGo items
              (max (1/10) ((items.headD (PreferenceWeight.mk "" 0)).weight * (1/4)))
              (List.range (min (items.length - 1) 10)) 0 items.length ≤
            items.length := by
        refine naturalSplitGo_le items _ items.length _ 0 items.length ?_ le_rfl
        intro i hi
        have h1 : i < min (items.length - 1) 10 := List.mem_range.mp hi
        have h2 : i < items.length - 1 := lt_of_lt_of_le h1 (min_le_left _ _)
        omega
      split
      · calc min 5 ((items.filter
              (fun it => decide (minThreshold < it.weight))).length) ≤
            (items.filter (fun it => decide (minThreshold < it.weight))).length :=
              min_le_right _ _
          _ ≤ items.length := List.length_filter_le _ _
      · exact hgo
  · intro h3
    unfold findNaturalSplit
    simp [h3]

/-- Witness for `findNaturalSplit_bounds` at a one-entry list. -/
theorem findNaturalSplit_bounds_witness :
    findNaturalSplit [PreferenceWeight.mk "a" 1] (1/10) ≤ 1 ∧
      ([PreferenceWeight.mk "a" 1].length ≤ 3 →
        findNaturalSplit [PreferenceWeight.mk "a" 1] (1/10) = 1) := by
  have h := findNaturalSplit_bounds [PreferenceWeight.mk "a" 1] (1/10)
    (by decide) (by decide)
  simpa using h

/-- C2 (counterexample to the claim as stated): on a non-empty,
strictly descending four-entry list where no gap qualifies and no
weight exceeds the threshold, `findNaturalSplit` returns `0`, outside
the claimed interval `[1, len(list)]`. -/
theorem findNaturalSplit_can_return_zero :
    lowWeightItems ≠ [] ∧
    List.Pairwise (fun a b => b.weight ≤ a.weight) lowWeightItems ∧
    findNaturalSplit lowWeightItems (1/10) = 0 ∧
    ¬(1 ≤ findNaturalSplit lowWeightItems (1/10)) := by
  have heval : findNaturalSplit lowWeightItems (1/10) = 0 := by
    unfold findNaturalSplit lowWeightItems
    norm_num [naturalSplitGo, jsRatioGT, List.range_succ]
  refine ⟨by simp [lowWeightItems], ?_, heval, by rw [heval]; decide⟩
  unfold lowWeightItems
  norm_num [List.pairwise_cons]

/-- C3 (amended): the two scoring strategies do not share one
per-record score.  For a record with no explicit feedback set, the
learned scorer's training discretization scores it by the dwell-time
formula `((timeSpentMs / (duration or 10000)) - 0.5) * 2`, while the
heuristic scorer instead contributes `+1` when the time ratio exceeds
`0.7` and `-1` when it is below `0.2`. -/
theorem dwell_time_scoring_split (inter : Interaction)
    (h : inter.liked = false ∧ inter.interested = false ∧
      inter.not_interested = false ∧ inter.commented = false) :
    trainPreferenceScore inter =
      (inter.timeSpentMs / durationOr10000 inter.duration - 1/2) * 2 ∧
    heuristicScore inter =
      (if 7/10 < inter.timeSpentMs / durationOr10000 inter.duration then (1:ℚ) else 0) +
        (if inter.timeSpentMs / durationOr10000 inter.duration < 2/10 then (-1:ℚ) else 0) := by
  obtain ⟨h1, h2, h3, h4⟩ := h
  unfold trainPreferenceScore heuristicScore explicitFeedbackScore
  simp only [h1, h2, h3, h4]
  norm_num
  split_ifs <;> ring

/-- Witness for `dwell_time_scoring_split` at `longDwellRecord`. -/
theorem dwell_time_scoring_split_witness :
    trainPreferenceScore longDwellRecord =
      (longDwellRecord.timeSpentMs / durationOr10000 longDwellRecord.duration - 1/2) * 2 ∧
    heuristicScore longDwellRecord =
      (if 7/10 < longDwellRecord.timeSpentMs / durationOr10000 longDwellRecord.duration
        then (1:ℚ) else 0) +
        (if longDwellRecord.timeSpentMs / durationOr10000 longDwellRecord.duration < 2/10
          then (-1:ℚ) else 0) :=
  dwell_time_scoring_split longDwellRecord (by simp [longDwellRecord, mkInteraction])

/-- C3 (counterexample to the claim as stated): on the no-explicit-
feedback record with `timeSpentMs = 1000` and default duration, the
learned scorer's training discretization scores `-0.8` but the
heuristic scorer scores `-1`: the heuristic does not contribute the
dwell-time formula. -/
theorem per_record_scores_disagree :
    newsRecord.liked = false ∧ newsRecord.interested = false ∧
    newsRecord.not_interested = false ∧ newsRecord.commented = false ∧
    trainPreferenceScore newsRecord = -4/5 ∧
    heuristicScore newsRecord = -1 ∧
    heuristicScore newsRecord ≠ trainPreferenceScore newsRecord := by
  unfold newsRecord mkInteraction
  norm_num [trainPreferenceScore, heuristicScore, explicitFeedbackScore, durationOr10000]

/-- `updateFirst` rewrites exactly the record `find?` returns, for a
predicate the update preserves. -/
theorem find?_updateFirst (p : α → Bool) (f : α → α) (hf : ∀ a, p (f a) = p a) :
    ∀ l : List α, (updateFirst p f l).find? p = (l.find? p).map f := by
  intro l
  induction l with
  | nil => rfl
  | cons a as ih =>
    by_cases h : p a
    · simp [updateFirst, h, List.find?_cons_of_pos, hf]
    · simp [updateFirst, h, List.find?_cons_of_neg, ih]

/-- `updateFirst` passes over a prefix containing no match. -/
theorem updateFirst_append_left_none (p : α → Bool) (f : α → α) :
    ∀ l lr : List α, l.find? p = none →
      updateFirst p f (l ++ lr) = l ++ updateFirst p f lr := by
  intro l
  induction l with
  | nil => simp
  | cons a as ih =>
    intro lr h
    by_cases hpa : p a
    · rw [List.find?_cons_of_pos _ hpa] at h; exact absurd h (by simp)
    · rw [List.find?_cons_of_neg _ hpa] at h
      simp [updateFirst, hpa, ih lr h]

/-- `find?` skips a prefix containing no match. -/
theorem find?_append_left_none (p : α → Bool) :
    ∀ l lr : List α, l.find? p = none → (l ++ lr).find? p = lr.find? p := by
  intro l
  induction l with
  | nil => simp
  | cons a as ih =>
    intro lr h
    by_cases hpa : p a
    · rw [List.find?_cons_of_pos _ hpa] at h; exact absurd h (by simp)
    · rw [List.find?_cons_of_neg _ hpa] at h
      rw [List.cons_append, List.find?_cons_of_neg _ hpa, ih lr h]

/-- C8 (amended): while a post is being viewed, the accrual operation
adds the elapsed span to that post's accrued `timeSpentMs` exactly when
the span lies in the open interval `(0, 300000)` ms (creating the
record at the elapsed value when the post has none), and leaves the
state completely unchanged for any span outside that interval. -/
theorem view_time_accrual_interval (st : FeedState) (now : ℤ) (pid : String)
    (start : ℤ) (hpid : st.lastViewedPostId = some pid) (hne : pid ≠ "")
    (hstart : st.postViewStartTime = some start) (hs0 : start ≠ 0) :
    (0 < now - start ∧ now - start < 300000 →
      ledgerTimeSpent (recordTimeSpentOnCurrentPost st now).interactions pid =
        ledgerTimeSpent st.interactions pid + ((now - start : ℤ) : ℚ)) ∧
    (¬(0 < now - start ∧ now - start < 300000) →
      recordTimeSpentOnCurrentPost st now = st) := by
  have hguard : ¬(pid = "" ∨ start = 0) := by simp [hne, hs0]
  have hp : ∀ i : Interaction,
      (fun i : Interaction => decide (i.postId = pid))
          ({ i with timeSpentMs := i.timeSpentMs + ((now - start : ℤ) : ℚ) }) =
        (fun i : Interaction => decide (i.postId = pid)) i := fun i => rfl
  constructor
  · intro hrange
    unfold recordTimeSpentOnCurrentPost
    rw [hpid, hstart]
    dsimp only
    rw [if_neg hguard, if_pos hrange]
    cases hfind : st.interactions.find? (fun i => i.postId = pid) with
    | some r =>
      unfold ledgerTimeSpent
      dsimp only
      rw [find?_updateFirst _ _ hp, hfind]
      rfl
    | none =>
      unfold ledgerTimeSpent
      dsimp only
      rw [updateFirst_append_left_none _ _ _ _ hfind]
      have hpnew : (fun i : Interaction => decide (i.postId = pid))
          (mkInteraction pid st.currentTopics st.currentHashtags now) = true := by
        simp [mkInteraction]
      rw [show updateFirst (fun i : Interaction => decide (i.postId = pid))
          (fun i => { i with timeSpentMs := i.timeSpentMs + ((now - start : ℤ) : ℚ) })
          [mkInteraction pid st.currentTopics st.currentHashtags now] =
          [{ mkInteraction pid st.currentTopics st.currentHashtags now with
              timeSpentMs := 0 + ((now - start : ℤ) : ℚ) }] by
        simp [updateFirst, hpnew, mkInteraction]]
      rw [find?_append_left_none _ _ _ hfind, hfind]
      simp [List.find?, mkInteraction]
  · intro hrange
    unfold recordTimeSpentOnCurrentPost
    rw [hpid, hstart]
    dsimp only
    rw [if_neg hguard, if_neg hrange]

/-- Witness for `view_time_accrual_interval` at `fiveMsState`, instant
100 (span 99 ms, inside the interval). -/
theorem view_time_accrual_interval_witness :
    (0 < (100:ℤ) - 1 ∧ (100:ℤ) - 1 < 300000 →
      ledgerTimeSpent (recordTimeSpentOnCurrentPost fiveMsState 100).interactions "p" =
        ledgerTimeSpent fiveMsState.interactions "p" + (((100:ℤ) - 1 : ℤ) : ℚ)) ∧
    (¬(0 < (100:ℤ) - 1 ∧ (100:ℤ) - 1 < 300000) →
      recordTimeSpentOnCurrentPost fiveMsState 100 = fiveMsState) :=
  view_time_accrual_interval fiveMsState 100 "p" 1 rfl (by decide) rfl (by decide)

/-- C8 (counterexample to the claim as stated): an elapsed span of
exactly 300000 ms lies in the claimed interval `(0, 300000]` but is
silently ignored: the code requires `spent < 300000` strictly, so the
state is returned unchanged. -/
theorem boundary_elapsed_not_accrued :
    ((0:ℤ) < 300001 - 1 ∧ ((300001:ℤ) - 1) ≤ 300000) ∧
    recordTimeSpentOnCurrentPost fiveMsState 300001 = fiveMsState := by
  refine ⟨by norm_num, ?_⟩
  rfl

/-- Membership in a `weight > 0.1` filter bounds the weight. -/
theorem weight_gt_of_mem_filter {l : List PreferenceWeight} {e : PreferenceWeight}
    (h : e ∈ l.filter (fun x => decide ((1:ℚ)/10 < x.weight))) :
    (1:ℚ)/10 < e.weight := by
  have hm := List.mem_filter.mp h
  simpa using hm.2

/-- Every heuristic-scorer result entry clears the `0.1` threshold. -/
theorem analyzeWithoutModel_weights (MT MH : List String)
    (arr : List Interaction) (e : PreferenceWeight)
    (h : e ∈ (analyzeWithoutModel MT MH arr).topics ++
      (analyzeWithoutModel MT MH arr).hashtags) :
    (1:ℚ)/10 < e.weight := by
  unfold analyzeWithoutModel at h
  dsimp only at h
  rcases List.mem_append.mp h with h | h
  · exact weight_gt_of_mem_filter (List.take_subset _ _ h)
  · exact weight_gt_of_mem_filter (List.take_subset _ _ h)

/-- Every selector-filtered model-path entry clears the threshold. -/
theorem selectorFiltered_weights {scored : List PreferenceWeight}
    {e : PreferenceWeight} (h : e ∈ selectorFiltered scored) :
    (1:ℚ)/10 < e.weight := by
  unfold selectorFiltered at h
  exact weight_gt_of_mem_filter h

/-- Every entry a blend against at least one retained topics snapshot
emits clears the threshold. -/
theorem blendWithPreviousResults_weights (s : List PreferenceWeight)
    (pt ph : List (List PreferenceWeight)) (cur : Results) (e : PreferenceWeight)
    (h : e ∈ (blendWithPreviousResults (s :: pt) ph cur).topics ++
      (blendWithPreviousResults (s :: pt) ph cur).hashtags) :
    (1:ℚ)/10 < e.weight := by
  unfold blendWithPreviousResults at h
  rw [if_neg (by simp)] at h
  dsimp only at h
  rcases List.mem_append.mp h with h | h <;> exact weight_gt_of_mem_filter h

/-- Every entry `analyzeInteractions` returns clears the threshold. -/
theorem analyzeInteractions_weights (MT MH : List String) (mt : Bool)
    (predict : List ℚ → List ℚ) (pt ph : List (List PreferenceWeight))
    (arr : List Interaction) (bp : Bool) (e : PreferenceWeight)
    (h : e ∈ (analyzeInteractions MT MH mt predict pt ph arr bp).topics ++
      (analyzeInteractions MT MH mt predict pt ph arr bp).hashtags) :
    (1:ℚ)/10 < e.weight := by
  unfold analyzeInteractions at h
  split at h
  · simp at h
  · split at h
    · simp at h
    · dsimp only at h
      by_cases hb : bp ∧ 0 < pt.length
      · rw [if_pos hb] at h
        obtain ⟨s, t, rfl⟩ : ∃ s t, pt = s :: t := by
          cases pt with
          | nil => exact absurd hb.2 (by simp)
          | cons s t => exact ⟨s, t, rfl⟩
        exact blendWithPreviousResults_weights s t ph _ e h
      · rw [if_neg hb] at h
        cases mt with
        | false => exact analyzeWithoutModel_weights MT MH arr e h
        | true =>
          rcases List.mem_append.mp h with h | h <;>
            exact selectorFiltered_weights h

/-- C7 (amended): every `PreferenceWeight` entry returned by
`analyzeInteractions` (on any path), by the heuristic scorer
`analyzeWithoutModel`, or by `blendWithPreviousResults` whenever at
least one topics snapshot is retained, has weight strictly above
`0.1`.  (With zero retained topics snapshots the blender passes its
input through unfiltered, so that case carries no such bound.) -/
theorem emitted_weights_exceed_threshold :
    (∀ (MT MH : List String) (mt : Bool) (predict : List ℚ → List ℚ)
      (pt ph : List (List PreferenceWeight)) (arr : List Interaction)
      (bp : Bool) (e : PreferenceWeight),
      e ∈ (analyzeInteractions MT MH mt predict pt ph arr bp).topics ++
        (analyzeInteractions MT MH mt predict pt ph arr bp).hashtags →
      (1:ℚ)/10 < e.weight) ∧
    (∀ (MT MH : List String) (arr : List Interaction) (e : PreferenceWeight),
      e ∈ (analyzeWithoutModel MT MH arr).topics ++
        (analyzeWithoutModel MT MH arr).hashtags →
      (1:ℚ)/10 < e.weight) ∧
    (∀ (s : List PreferenceWeight) (pt ph : List (List PreferenceWeight))
      (cur : Results) (e : PreferenceWeight),
      e ∈ (blendWithPreviousResults (s :: pt) ph cur).topics ++
        (blendWithPreviousResults (s :: pt) ph cur).hashtags →
      (1:ℚ)/10 < e.weight) :=
  ⟨analyzeInteractions_weights, analyzeWithoutModel_weights,
    blendWithPreviousResults_weights⟩

/-- Witness for `emitted_weights_exceed_threshold`: a weight-1 entry
surviving a blend against one (empty) retained topics snapshot. -/
theorem emitted_weights_exceed_threshold_witness :
    (1:ℚ)/10 < (PreferenceWeight.mk "a" 1).weight :=
  emitted_weights_exceed_threshold.2.2 [] [] []
    (Results.mk [PreferenceWeight.mk "a" 1] []) (PreferenceWeight.mk "a" 1)
    (by simp [blendWithPreviousResults, blendDomain, buildIndexMap, sortByWeightDesc]
        norm_num)

/-- C7 (counterexample to the claim as stated): with zero retained
topics snapshots, `blendWithPreviousResults` emits its input entry of
weight `0.05 ≤ 0.1` unchanged. -/
theorem blender_emits_low_weight_on_empty_snapshots :
    PreferenceWeight.mk "x" (1/20) ∈
      (blendWithPreviousResults [] []
        (Results.mk [PreferenceWeight.mk "x" (1/20)] [])).topics ∧
    ¬((1:ℚ)/10 < (PreferenceWeight.mk "x" (1/20)).weight) := by
  constructor
  · simp [blendWithPreviousResults]
  · norm_num

/-- C4 (amended): for every batch request, the gateway responds with
exactly the keys `posts`, `limit` and `total` (not `items`), where
`posts` holds at most `limit` posts, `limit` echoes the effective
request limit, and `total` is the corpus size. -/
theorem gateway_response_shape (corpus : List Post) (q : PostsQuery)
    (noiseShuffle finalShuffle : List Post → List Post) :
    (apiPostsHandler corpus q noiseShuffle finalShuffle).map Prod.fst =
      ["posts", "limit", "total"] ∧
    (responseBatch (apiPostsHandler corpus q noiseShuffle finalShuffle)).length ≤
      effectiveLimit q ∧
    (apiPostsHandler corpus q noiseShuffle finalShuffle).lookup "limit" =
      some (ApiValue.num (effectiveLimit q)) ∧
    (apiPostsHandler corpus q noiseShuffle finalShuffle).lookup "total" =
      some (ApiValue.num corpus.length) := by
  refine ⟨rfl, ?_, rfl, rfl⟩
  show ((finalShuffle _).take (effectiveLimit q)).length ≤ effectiveLimit q
  exact List.length_take_le _ _

/-- C4 (counterexample to the claim as stated): the response object of
the batch endpoint has no `items` key — the batch is under the key
`posts`. -/
theorem gateway_response_lacks_items_key :
    (apiPostsHandler onePostCorpus bareQuery id id).map Prod.fst =
      ["posts", "limit", "total"] ∧
    (apiPostsHandler onePostCorpus bareQuery id id).lookup "items" = none := by
  constructor <;> rfl

/-- C5 (amended): when the training fit throws, `trainModel` catches
the exception and the training-in-progress flag reverts to false, but
the model-trained flag ends up false regardless of the value it had
before the attempt (the attempt already rebuilt the model via
`loadModel(true)`, resetting the flag, and the catch clears it again),
so a previously trained model is not retained for inference. -/
theorem failed_fit_final_state (st : ModelState) (MODEL_TOPICS : List String)
    (interactionsArr : List Interaction)
    (previousTopicsResults : List (List PreferenceWeight)) (usePreviousData : Bool)
    (hT : st.modelTraining = false) (hV : MODEL_TOPICS ≠ [])
    (hN : MIN_INTERACTIONS ≤ interactionsArr.length) :
    (trainModel st MODEL_TOPICS interactionsArr previousTopicsResults
        usePreviousData true).1.modelTraining = false ∧
    (trainModel st MODEL_TOPICS interactionsArr previousTopicsResults
        usePreviousData true).1.modelTrained = false := by
  have hpos : 0 < interactionsArr.length := by
    have : 0 < MIN_INTERACTIONS := by decide
    omega
  have hlen : 0 < (sliceLast 100 interactionsArr).length := by
    simp only [sliceLast, List.length_drop]
    omega
  obtain ⟨a, as, hsl⟩ : ∃ a as, sliceLast 100 interactionsArr = a :: as := by
    cases hs : sliceLast 100 interactionsArr with
    | nil => rw [hs] at hlen; simp at hlen
    | cons a as => exact ⟨a, as, rfl⟩
  have hbase : trainingRows MODEL_TOPICS interactionsArr previousTopicsResults
      usePreviousData =
      trainRow MODEL_TOPICS a :: (as.map (trainRow MODEL_TOPICS) ++
        (if usePreviousData ∧ 0 < previousTopicsResults.length then
          syntheticRows MODEL_TOPICS previousTopicsResults
        else [])) := by
    rw [trainingRows, hsl]; simp
  have hTlen : 0 < MODEL_TOPICS.length := List.length_pos.mpr hV
  have hcond :
      0 < ((trainingRows MODEL_TOPICS interactionsArr previousTopicsResults
        usePreviousData).map Prod.fst).length ∧
      0 < (((trainingRows MODEL_TOPICS interactionsArr previousTopicsResults
        usePreviousData).map Prod.fst).headD []).length := by
    rw [hbase]
    simp [trainRow, hTlen]
  unfold trainModel
  rw [if_neg (by simp [hT, hV])]
  rw [if_neg (Nat.not_lt.mpr hN)]
  dsimp only
  rw [if_pos hcond]
  simp

/-- Witness for `failed_fit_final_state` at a previously trained idle
state with a ten-record window. -/
theorem failed_fit_final_state_witness :
    (trainModel trainedIdleState ["a"] tenRecords [] true true).1.modelTraining = false ∧
    (trainModel trainedIdleState ["a"] tenRecords [] true true).1.modelTrained = false :=
  failed_fit_final_state trainedIdleState ["a"] tenRecords [] true rfl (by simp)
    (by simp [tenRecords, MIN_INTERACTIONS])

/-- C5 (counterexample to the claim as stated): starting from a state
whose model-trained flag is true, a training attempt whose fit throws
ends with the flag false — the flag does not retain its prior value,
so the previously trained model is lost. -/
theorem failed_fit_clears_trained_flag :
    trainedIdleState.modelTrained = true ∧
    (trainModel trainedIdleState ["a"] tenRecords [] true true).1.modelTraining = false ∧
    (trainModel trainedIdleState ["a"] tenRecords [] true true).1.modelTrained = false := by
  refine ⟨rfl, rfl, rfl⟩

set_option maxRecDepth 40000 in
/-- C1 (code bug): starting from an empty ledger with post `"q"` on
view, 100 engagement operations fill the ledger exactly to the
100-record cap, and one further view-time accrual on `"q"` (999 ms,
well inside the accepted range) pushes a 101st record: the accrual
path appends without the trim the engagement path performs, violating
the `≤ 100` ledger invariant. -/
theorem ledger_cap_violated_by_view_time_accrual :
    fullLedgerState.interactions.length = 100 ∧
    (recordTimeSpentOnCurrentPost fullLedgerState 1000).interactions.length = 101 := by
  refine ⟨rfl, rfl⟩

end Recommender
